import Mathlib

/-!
Verification of the task catalog, argument collection, invocation-guard and
file-watcher logic of the mise-vscode extension.

The definitions below are a shallow embedding of `src/extension.ts`
(the concatenation of `extension.ts`, `providers/tasksProvider.ts` and
`fileWatcher.ts`).  Interactive prompts (`vscode.window.showInputBox`,
`showQuickPick`) are modelled as an oracle `Nat → Option String` consumed one
answer per prompt in program order (`none` = dismissed/cancelled, `some s` =
the entered text or the picked item).  Backend calls are modelled as explicit
parameters; each operation returns a trace recording which collaborators were
invoked and with what arguments, and which user-facing message (if any) was
shown.  JavaScript string truthiness (`if (value)`) is modelled as
"present and non-empty".
-/

namespace MiseVscode

/-- A task record as returned by the backend (`MiseTask` in the source).
`source` is `Option String` because the `source` field may be absent
(`undefined`) in addition to possibly being the empty string. -/
structure MiseTask where
  name : String
  source : Option String
  description : String
deriving Repr, DecidableEq

/-- The grouping key computed by `task.source || "Unknown"` in
`groupTasksBySource` (tasksProvider.ts line 111): an absent or empty `source`
is replaced by the literal `"Unknown"` (JS `||` on a string tests truthiness,
i.e. non-emptiness). -/
def taskSourceKey (t : MiseTask) : String :=
  match t.source with
  | some s => if s = "" then "Unknown" else s
  | none => "Unknown"

/-- One step of the `reduce` in `groupTasksBySource` (tasksProvider.ts lines
109-119): `if (!groups[source]) groups[source] = []; groups[source].push(task)`.
The JS object accumulator is modelled as an association list in key insertion
order (existing key: append the task to its bucket in place; new key: append
a fresh singleton bucket at the end), which is exactly the enumeration-order
semantics of a JS string-keyed record for non-index keys. -/
def pushTask (key : String) (task : MiseTask) :
    List (String × List MiseTask) → List (String × List MiseTask)
  | [] => [(key, [task])]
  | g :: rest =>
    if g.1 = key then (g.1, g.2 ++ [task]) :: rest
    else g :: pushTask key task rest

/-- `MiseTasksProvider.groupTasksBySource` (tasksProvider.ts lines 108-120):
fold the fetched task list into groups keyed by source. -/
def groupTasksBySource (tasks : List MiseTask) : List (String × List MiseTask) :=
  tasks.foldl (fun groups task => pushTask (taskSourceKey task) task groups) []

/-- A positional argument of a usage spec (`spec.args` entries). -/
structure PositionalArg where
  name : String
  required : Bool
deriving Repr, DecidableEq

/-- A flag of a usage spec (`spec.flags` entries); `arg = some placeholder`
means the flag takes a value, `arg = none` means it is a boolean switch. -/
structure FlagArg where
  name : String
  arg : Option String
deriving Repr, DecidableEq

/-- A task's usage specification. -/
structure UsageSpec where
  args : List PositionalArg
  flags : List FlagArg
deriving Repr, DecidableEq

/-- Per-task info returned by `miseService.getTaskInfo` (`MiseTaskInfo`). -/
structure MiseTaskInfo where
  name : String
  usageSpec : UsageSpec
deriving Repr, DecidableEq

/-- The failure thrown by `collectArgumentValues`
(`throw new Error(...)` at tasksProvider.ts line 143). -/
inductive CollectError where
  | missingRequired (name : String)
deriving Repr, DecidableEq

/-- JS truthiness of a `string | undefined` prompt answer:
true iff present and non-empty. -/
def strOptTruthy : Option String → Bool
  | some s => s != ""
  | none => false

/-- The positional-argument loop of `collectArgumentValues` (tasksProvider.ts
lines 127-145).  `prompter i` is the answer to the i-th prompt of the whole
collection; the loop consumes one prompt per positional argument, pushes the
answer when truthy, skips a falsy answer for an optional argument, and throws
`missingRequired` on a falsy answer for a required one.  Returns the collected
tokens together with the index of the next unconsumed prompt. -/
def collectArgsAux (prompter : Nat → Option String) :
    List PositionalArg → Nat → Except CollectError (List String × Nat)
  | [], i => .ok ([], i)
  | a :: rest, i =>
    match prompter i with
    | some v =>
      if v = "" then
        if a.required then .error (.missingRequired a.name)
        else collectArgsAux prompter rest (i + 1)
      else
        match collectArgsAux prompter rest (i + 1) with
        | .ok (toks, j) => .ok (v :: toks, j)
        | .error e => .error e
    | none =>
      if a.required then .error (.missingRequired a.name)
      else collectArgsAux prompter rest (i + 1)

/-- The flag loop of `collectArgumentValues` (tasksProvider.ts lines 147-176).
A valued flag first consumes a yes/no pick; only the literal answer `"Yes"`
leads to a value prompt, and only a truthy value appends the two tokens
`flag.name, value`.  A boolean flag consumes one pick and appends `flag.name`
exactly on the literal answer `"Yes"`.  This loop never throws. -/
def collectFlagsAux (prompter : Nat → Option String) :
    List FlagArg → Nat → List String × Nat
  | [], i => ([], i)
  | f :: rest, i =>
    match f.arg with
    | some _ =>
      if prompter i = some "Yes" then
        match prompter (i + 1) with
        | some v =>
          if v = "" then collectFlagsAux prompter rest (i + 2)
          else
            (f.name :: v :: (collectFlagsAux prompter rest (i + 2)).1,
             (collectFlagsAux prompter rest (i + 2)).2)
        | none => collectFlagsAux prompter rest (i + 2)
      else collectFlagsAux prompter rest (i + 1)
    | none =>
      if prompter i = some "Yes" then
        ((collectFlagsAux prompter rest (i + 1)).1.cons f.name,
         (collectFlagsAux prompter rest (i + 1)).2)
      else collectFlagsAux prompter rest (i + 1)

/-- `MiseTasksProvider.collectArgumentValues` (tasksProvider.ts lines
122-179): positional arguments first, then flags, in declaration order;
a `missingRequired` throw aborts the whole collection. -/
def collectArgumentValues (info : MiseTaskInfo) (prompter : Nat → Option String) :
    Except CollectError (List String) :=
  match collectArgsAux prompter info.usageSpec.args 0 with
  | .error e => .error e
  | .ok (posToks, i) => .ok (posToks ++ (collectFlagsAux prompter info.usageSpec.flags i).1)

/-- The cause carried by the error message shown in the catch blocks of
`runTask`/`watchTask` (the stringified thrown `Error` / rejection). -/
inductive RunFailure where
  | taskNotFound (name : String)
  | collectionFailed (e : CollectError)
  | backendFailure (msg : String)
deriving Repr, DecidableEq

/-- A user-facing message shown via `vscode.window.showErrorMessage`. -/
inductive ShownMessage where
  | failedToRunTask (taskName : String) (cause : RunFailure)
  | watchexecRequired
deriving Repr, DecidableEq

/-- Observable outcome of one `runTask`/`watchTask` call:
whether `collectArgumentValues` was invoked, the argument list of the backend
run/watch invocation if one happened, and the error message shown if any.
The operation itself always returns normally (every failure is caught and
converted to a message), which this total function models directly. -/
structure InvokeTrace where
  collectorInvoked : Bool
  backendCall : Option (List String)
  errorShown : Option ShownMessage
deriving Repr, DecidableEq

/-- The shared resolve/collect/invoke body: the whole of `runTask`
(tasksProvider.ts lines 181-202) and, textually identical up to the backend
operation invoked, the try/catch block of `watchTask` (lines 219-238).
`getTaskInfo` models `miseService.getTaskInfo`; `backendOp args` models
`miseService.runTask(taskName, ...args)` resp. `watchTask(taskName, ...args)`
(invoked with no extra arguments when the spec has no args and no flags). -/
def runOrWatchBody (getTaskInfo : String → Option MiseTaskInfo)
    (prompter : Nat → Option String) (backendOp : List String → Except String Unit)
    (taskName : String) : InvokeTrace :=
  match getTaskInfo taskName with
  | none =>
    { collectorInvoked := false, backendCall := none
      errorShown := some (.failedToRunTask taskName (.taskNotFound taskName)) }
  | some info =>
    if info.usageSpec.args.length > 0 ∨ info.usageSpec.flags.length > 0 then
      match collectArgumentValues info prompter with
      | .error e =>
        { collectorInvoked := true, backendCall := none
          errorShown := some (.failedToRunTask taskName (.collectionFailed e)) }
      | .ok args =>
        match backendOp args with
        | .ok _ => { collectorInvoked := true, backendCall := some args, errorShown := none }
        | .error m =>
          { collectorInvoked := true, backendCall := some args
            errorShown := some (.failedToRunTask taskName (.backendFailure m)) }
    else
      match backendOp [] with
      | .ok _ => { collectorInvoked := false, backendCall := some [], errorShown := none }
      | .error m =>
        { collectorInvoked := false, backendCall := some []
          errorShown := some (.failedToRunTask taskName (.backendFailure m)) }

/-- `MiseTasksProvider.runTask` (tasksProvider.ts lines 181-202). -/
def runTask (getTaskInfo : String → Option MiseTaskInfo)
    (prompter : Nat → Option String) (backendRun : List String → Except String Unit)
    (taskName : String) : InvokeTrace :=
  runOrWatchBody getTaskInfo prompter backendRun taskName

/-- An installed tool as returned by `miseService.getTools`; only the `name`
field is inspected by `watchTask`. -/
structure MiseTool where
  name : String
deriving Repr, DecidableEq

/-- The prerequisite test of `watchTask` (tasksProvider.ts lines 205-212):
`Promise.allSettled` of `getTools()` and `execAsync("which watchexec")`;
a rejected tools call degrades to the empty list, a rejected probe degrades
to empty stdout, and the guard is `!watchexec && !watchexecFromTools`
(stdout empty and no installed tool literally named `"watchexec"`). -/
def watchPrereqMissing (toolsResult : Except Unit (List MiseTool))
    (whichResult : Except Unit String) : Bool :=
  let tools := match toolsResult with | .ok ts => ts | .error _ => []
  let watchexecFromTools := tools.find? (fun tool => tool.name == "watchexec")
  let watchexec := match whichResult with | .ok stdout => stdout | .error _ => ""
  (watchexec == "") && watchexecFromTools.isNone

/-- `MiseTasksProvider.watchTask` (tasksProvider.ts lines 204-239): when the
prerequisite is missing it shows the watchexec install message and returns
without touching the backend; otherwise it proceeds exactly as `runTask`
but with the backend watch operation. -/
def watchTask (toolsResult : Except Unit (List MiseTool))
    (whichResult : Except Unit String) (getTaskInfo : String → Option MiseTaskInfo)
    (prompter : Nat → Option String) (backendWatch : List String → Except String Unit)
    (taskName : String) : InvokeTrace :=
  if watchPrereqMissing toolsResult whichResult then
    { collectorInvoked := false, backendCall := none, errorShown := some .watchexecRequired }
  else
    runOrWatchBody getTaskInfo prompter backendWatch taskName

/-- Observable outcome of one `MiseFileWatcher.handleFileChange` call:
whether the backend probe (`execMiseCommand "tasks ls"`) was invoked, and
the uri the change callback was invoked with, if it was. -/
structure FileChangeTrace where
  probeInvoked : Bool
  callbackInvokedWith : Option String
deriving Repr, DecidableEq

/-- `MiseFileWatcher.handleFileChange` (fileWatcher.ts lines 364-378):
return immediately when the extension is disabled; otherwise probe the
backend with `tasks ls` and invoke the change callback with the triggering
uri exactly when the probe succeeds with non-empty stdout; a probe failure
is logged and swallowed. -/
def handleFileChange (extensionEnabled : Bool) (probeResult : Except String String)
    (uri : String) : FileChangeTrace :=
  if !extensionEnabled then { probeInvoked := false, callbackInvokedWith := none }
  else
    match probeResult with
    | .ok stdout =>
      if stdout = "" then { probeInvoked := true, callbackInvokedWith := none }
      else { probeInvoked := true, callbackInvokedWith := some uri }
    | .error _ => { probeInvoked := true, callbackInvokedWith := none }

/-- The glob pattern a file-system watcher was created for (the concrete glob
strings live in `utils/miseUtilts`, outside the modelled core; only their
identity matters here). -/
inductive WatchPattern where
  | miseGlob (root : String)
  | configFile (path : String)
  | idiomaticGlob (root : String)
  | taskDirsGlob (root : String)
deriving Repr, DecidableEq

/-- A created `vscode.FileSystemWatcher` together with whether the
`onDidChange`/`onDidCreate`/`onDidDelete` handlers were registered on it. -/
structure FileWatcher where
  pattern : WatchPattern
  handlersRegistered : Bool
deriving Repr, DecidableEq

/-- A config file as returned by `miseService.getMiseConfigFiles`. -/
structure ConfigFile where
  path : String
deriving Repr, DecidableEq

/-- `MiseFileWatcher.initFileWatcher` models `initializeFileWatcher`
(fileWatcher.ts lines 320-362).  It returns the watchers pushed onto
`this.fileWatchers` and whether the method threw (rejected).  With no root
folder it returns early.  Otherwise it first creates the config-glob watcher,
then awaits `getMiseConfigFiles`: if that call rejects, execution stops there
(the already-created config-glob watcher stays in the list, and the final
handler-registration loop never runs); on success it creates the remaining
watchers and registers handlers on every watcher in the list. -/
def initFileWatcher (rootFolder : Option String)
    (configFilesResult : Except String (List ConfigFile)) : List FileWatcher × Bool :=
  match rootFolder with
  | none => ([], false)
  | some root =>
    let w1 : List FileWatcher := [{ pattern := .miseGlob root, handlersRegistered := false }]
    match configFilesResult with
    | .error _ => (w1, true)
    | .ok files =>
      let ws := w1
        ++ files.map (fun f => { pattern := .configFile f.path, handlersRegistered := false })
        ++ [{ pattern := .idiomaticGlob root, handlersRegistered := false },
            { pattern := .taskDirsGlob root, handlersRegistered := false }]
      (ws.map (fun w => { w with handlersRegistered := true }), false)

/-- State observable after `MiseFileWatcher` construction. -/
structure MiseFileWatcherState where
  fileWatchers : List FileWatcher
  initErrorLogged : Bool
deriving Repr, DecidableEq

/-- The `MiseFileWatcher` constructor (fileWatcher.ts lines 305-318): it
kicks off the watcher setup and attaches a `.catch` that only logs, so
construction itself never throws; a setup rejection is recorded as
`initErrorLogged`.  Total by construction, modelling "does not throw". -/
def miseFileWatcherConstruct (rootFolder : Option String)
    (configFilesResult : Except String (List ConfigFile)) : MiseFileWatcherState :=
  let r := initFileWatcher rootFolder configFilesResult
  { fileWatchers := r.1, initErrorLogged := r.2 }

/-- The grouping invariant used by the helper lemmas below: every task stored
in a bucket has that bucket's key as its source key. -/
def GroupsKeyed (gs : List (String × List MiseTask)) : Prop :=
  ∀ g ∈ gs, ∀ x ∈ g.2, taskSourceKey x = g.1

/-- C5: when the backend's per-task info lookup returns nothing, `runTask`
fails with a task-not-found message for that name, never invokes the backend
run operation, and (being a total function into `InvokeTrace`) converts the
failure to a user-facing message instead of letting an exception escape. -/
theorem runTask_taskNotFound (gti : String → Option MiseTaskInfo)
    (p : Nat → Option String) (b : List String → Except String Unit)
    (taskName : String) (h : gti taskName = none) :
    runTask gti p b taskName =
      { collectorInvoked := false, backendCall := none
        errorShown := some (.failedToRunTask taskName (.taskNotFound taskName)) } := by
  simp [runTask, runOrWatchBody, h]

/-- Witness for `runTask_taskNotFound` at a concrete lookup and task name. -/
theorem runTask_taskNotFound_witness :
    runTask (fun _ => none) (fun _ => none) (fun _ => .ok ()) "build" =
      { collectorInvoked := false, backendCall := none
        errorShown := some (.failedToRunTask "build" (.taskNotFound "build")) } :=
  runTask_taskNotFound (fun _ => none) (fun _ => none) (fun _ => .ok ()) "build" rfl

/-- C8: a file change delivered while the extension is disabled is ignored
entirely: the backend probe is not invoked and the change callback is not
invoked. -/
theorem handleFileChange_disabled (probeResult : Except String String) (uri : String) :
    handleFileChange false probeResult uri =
      { probeInvoked := false, callbackInvokedWith := none } := rfl

/-- C10: when the config-file listing rejects during watcher setup,
construction still returns normally (the error is merely recorded as logged),
the watcher list contains exactly the config-glob watcher created before the
failing call, and no watcher in the list has event handlers registered. -/
theorem fileWatcher_configListing_failure (root : String) (e : String) :
    miseFileWatcherConstruct (some root) (.error e) =
      { fileWatchers := [{ pattern := .miseGlob root, handlersRegistered := false }]
        initErrorLogged := true } ∧
    ∀ w ∈ (miseFileWatcherConstruct (some root) (.error e)).fileWatchers,
      w.handlersRegistered = false := by
  refine ⟨rfl, ?_⟩
  intro w hw
  simp only [miseFileWatcherConstruct, initFileWatcher, List.mem_singleton] at hw
  rw [hw]

/-- Witness for `fileWatcher_configListing_failure` at a concrete root. -/
theorem fileWatcher_configListing_failure_witness :
    miseFileWatcherConstruct (some "/w") (.error "boom") =
      { fileWatchers := [{ pattern := .miseGlob "/w", handlersRegistered := false }]
        initErrorLogged := true } :=
  (fileWatcher_configListing_failure "/w" "boom").1

/-- C4: a resolved task whose usage spec has no args and no flags makes
`runTask` skip the argument collector and call the backend run operation
with no extra arguments, and makes `watchTask` skip the collector as well,
calling the backend watch operation with no extra arguments whenever the
watch prerequisite is present. -/
theorem trivialSpec_skips_collector (gti : String → Option MiseTaskInfo)
    (p : Nat → Option String) (b : List String → Except String Unit)
    (taskName : String) (info : MiseTaskInfo) (hinfo : gti taskName = some info)
    (hargs : info.usageSpec.args = []) (hflags : info.usageSpec.flags = []) :
    (runTask gti p b taskName).collectorInvoked = false ∧
    (runTask gti p b taskName).backendCall = some [] ∧
    ∀ tr wr, (watchTask tr wr gti p b taskName).collectorInvoked = false ∧
      (watchPrereqMissing tr wr = false →
        (watchTask tr wr gti p b taskName).backendCall = some []) := by
  have hbody : (runOrWatchBody gti p b taskName).collectorInvoked = false ∧
      (runOrWatchBody gti p b taskName).backendCall = some [] := by
    unfold runOrWatchBody
    rw [hinfo]
    simp only [hargs, hflags, List.length_nil, gt_iff_lt, Nat.lt_irrefl, or_self, if_false]
    cases b [] <;> simp
  refine ⟨hbody.1, hbody.2, ?_⟩
  intro tr wr
  constructor
  · unfold watchTask
    by_cases hp : watchPrereqMissing tr wr
    · rw [if_pos hp]
    · rw [if_neg hp]; exact hbody.1
  · intro hp
    unfold watchTask
    rw [if_neg (by rw [hp]; exact Bool.false_ne_true)]
    exact hbody.2

/-- Witness for `trivialSpec_skips_collector` at a concrete trivial spec. -/
theorem trivialSpec_skips_collector_witness :
    (runTask (fun _ => some ⟨"build", ⟨[], []⟩⟩) (fun _ => none) (fun _ => .ok ())
      "build").backendCall = some [] :=
  (trivialSpec_skips_collector (fun _ => some ⟨"build", ⟨[], []⟩⟩) (fun _ => none)
    (fun _ => .ok ()) "build" ⟨"build", ⟨[], []⟩⟩ rfl rfl rfl).2.1

/-- C2: `watchTask` shows the missing-watchexec message and skips the backend
exactly when the (possibly rejected, then treated as empty) tool listing has
no entry named `watchexec` and the (possibly rejected, then treated as empty)
`which` probe reports empty stdout; otherwise it proceeds with the shared
resolve/collect/invoke body; and a rejection of either probe is treated
exactly as that source reporting absence. -/
theorem watchTask_prereq_guard (tr : Except Unit (List MiseTool))
    (wr : Except Unit String) (gti : String → Option MiseTaskInfo)
    (p : Nat → Option String) (bw : List String → Except String Unit)
    (taskName : String) :
    (watchPrereqMissing tr wr = true ↔
      ((∀ ts, tr = .ok ts → ∀ t ∈ ts, t.name ≠ "watchexec") ∧
       (∀ s, wr = .ok s → s = ""))) ∧
    (watchPrereqMissing tr wr = true →
      watchTask tr wr gti p bw taskName =
        { collectorInvoked := false, backendCall := none
          errorShown := some .watchexecRequired }) ∧
    (watchPrereqMissing tr wr = false →
      watchTask tr wr gti p bw taskName = runOrWatchBody gti p bw taskName) ∧
    watchPrereqMissing (.error ()) wr = watchPrereqMissing (.ok []) wr ∧
    watchPrereqMissing tr (.error ()) = watchPrereqMissing tr (.ok "") := by
  refine ⟨?_, ?_, ?_, rfl, rfl⟩
  · unfold watchPrereqMissing
    cases tr with
    | ok ts =>
      cases wr with
      | ok s =>
        simp [List.find?_eq_none, Option.isNone_iff_eq_none, and_comm]
      | error u =>
        simp [List.find?_eq_none, Option.isNone_iff_eq_none]
    | error u =>
      cases wr with
      | ok s => simp [List.find?_eq_none]
      | error u' => simp
  · intro hp
    unfold watchTask
    rw [if_pos hp]
  · intro hp
    unfold watchTask
    rw [if_neg (by rw [hp]; exact Bool.false_ne_true)]

/-- Witness for `watchTask_prereq_guard`: with both probes rejected, watch
mode aborts with the watchexec message and no backend call. -/
theorem watchTask_prereq_guard_witness :
    watchTask (.error ()) (.error ()) (fun _ => none) (fun _ => none)
      (fun _ => .ok ()) "build" =
      { collectorInvoked := false, backendCall := none
        errorShown := some .watchexecRequired } :=
  (watchTask_prereq_guard (.error ()) (.error ()) (fun _ => none) (fun _ => none)
    (fun _ => .ok ()) "build").2.1 rfl

/-- C6: a value-taking flag whose yes/no question is answered with the
literal `"Yes"` followed by a non-empty value contributes exactly the two
adjacent tokens `flag name, value`; declining the question, or supplying an
empty or cancelled value, contributes no token at all (never a partial
token); on a spec holding just that flag the collection therefore returns
`[name, value]` resp. `[]`. -/
theorem valuedFlag_tokens (tn fname ph : String) (rest : List FlagArg)
    (p : Nat → Option String) (i : Nat) :
    (∀ v, p i = some "Yes" → p (i + 1) = some v → v ≠ "" →
      collectFlagsAux p (⟨fname, some ph⟩ :: rest) i =
        (fname :: v :: (collectFlagsAux p rest (i + 2)).1,
         (collectFlagsAux p rest (i + 2)).2)) ∧
    (p i ≠ some "Yes" →
      collectFlagsAux p (⟨fname, some ph⟩ :: rest) i =
        collectFlagsAux p rest (i + 1)) ∧
    (p i = some "Yes" → strOptTruthy (p (i + 1)) = false →
      collectFlagsAux p (⟨fname, some ph⟩ :: rest) i =
        collectFlagsAux p rest (i + 2)) ∧
    (∀ v, p 0 = some "Yes" → p 1 = some v → v ≠ "" →
      collectArgumentValues ⟨tn, ⟨[], [⟨fname, some ph⟩]⟩⟩ p = .ok [fname, v]) ∧
    (p 0 ≠ some "Yes" →
      collectArgumentValues ⟨tn, ⟨[], [⟨fname, some ph⟩]⟩⟩ p = .ok []) := by
  have step : ∀ (rs : List FlagArg) (j : Nat),
      (∀ v, p j = some "Yes" → p (j + 1) = some v → v ≠ "" →
        collectFlagsAux p (⟨fname, some ph⟩ :: rs) j =
          (fname :: v :: (collectFlagsAux p rs (j + 2)).1,
           (collectFlagsAux p rs (j + 2)).2)) ∧
      (p j ≠ some "Yes" →
        collectFlagsAux p (⟨fname, some ph⟩ :: rs) j =
          collectFlagsAux p rs (j + 1)) ∧
      (p j = some "Yes" → strOptTruthy (p (j + 1)) = false →
        collectFlagsAux p (⟨fname, some ph⟩ :: rs) j =
          collectFlagsAux p rs (j + 2)) := by
    intro rs j
    refine ⟨?_, ?_, ?_⟩
    · intro v hyes hval hne
      simp [collectFlagsAux, hyes, hval, hne]
    · intro hno
      simp [collectFlagsAux, hno]
    · intro hyes hfalsy
      cases hval : p (j + 1) with
      | none => simp [collectFlagsAux, hyes, hval]
      | some v =>
        rw [hval] at hfalsy
        have hv : v = "" := by simpa [strOptTruthy] using hfalsy
        simp [collectFlagsAux, hyes, hval, hv]
  obtain ⟨s1, s2, s3⟩ := step rest i
  refine ⟨s1, s2, s3, ?_, ?_⟩
  · intro v hyes hval hne
    simp [collectArgumentValues, collectArgsAux, collectFlagsAux, hyes, hval, hne]
  · intro hno
    simp [collectArgumentValues, collectArgsAux, collectFlagsAux, hno]

/-- Witness for `valuedFlag_tokens`: a lone valued flag answered `"Yes"` then
`"prod"` collects exactly the flag name followed by the value. -/
theorem valuedFlag_tokens_witness :
    collectArgumentValues ⟨"t", ⟨[], [⟨"--env", some "name"⟩]⟩⟩
      (fun j => if j = 0 then some "Yes" else some "prod") = .ok ["--env", "prod"] :=
  (valuedFlag_tokens "t" "--env" "name" []
    (fun j => if j = 0 then some "Yes" else some "prod") 0).2.2.2.1 "prod"
    (by simp) (by simp) (by simp)

/-- C7: a boolean flag answered with the literal `"Yes"` contributes exactly
its name as a single token and any other answer contributes nothing, so a
spec holding just that flag collects to `[name]` resp. `[]`. -/
theorem boolFlag_tokens (tn fname : String) (rest : List FlagArg)
    (p : Nat → Option String) (i : Nat) :
    (p i = some "Yes" →
      collectFlagsAux p (⟨fname, none⟩ :: rest) i =
        ((collectFlagsAux p rest (i + 1)).1.cons fname,
         (collectFlagsAux p rest (i + 1)).2)) ∧
    (p i ≠ some "Yes" →
      collectFlagsAux p (⟨fname, none⟩ :: rest) i =
        collectFlagsAux p rest (i + 1)) ∧
    collectArgumentValues ⟨tn, ⟨[], [⟨fname, none⟩]⟩⟩ p =
      .ok (if p 0 = some "Yes" then [fname] else []) := by
  refine ⟨?_, ?_, ?_⟩
  · intro hyes
    simp [collectFlagsAux, hyes]
  · intro hno
    simp [collectFlagsAux, hno]
  · by_cases h : p 0 = some "Yes" <;>
      simp [collectArgumentValues, collectArgsAux, collectFlagsAux, h]

/-- Witness for `boolFlag_tokens`: answering `"Yes"` on a lone boolean flag
collects exactly the flag name. -/
theorem boolFlag_tokens_witness :
    collectArgumentValues ⟨"t", ⟨[], [⟨"--verbose", none⟩]⟩⟩ (fun _ => some "Yes") =
      .ok ["--verbose"] := by
  have h := (boolFlag_tokens "t" "--verbose" [] (fun _ => some "Yes") 0).2.2
  simpa using h

/-- C9: a flag whose yes/no prompt is dismissed, cancelled or answered with
anything other than the literal `"Yes"` contributes no token and collection
simply proceeds with the next flag; and the flag phase can never fail the
collection — every collection failure originates in the positional phase. -/
theorem flagPrompt_declined_skips (f : FlagArg) (rest : List FlagArg)
    (p : Nat → Option String) (i : Nat) (hno : p i ≠ some "Yes") :
    collectFlagsAux p (f :: rest) i = collectFlagsAux p rest (i + 1) ∧
    ∀ (info : MiseTaskInfo) (q : Nat → Option String) (e : CollectError),
      collectArgumentValues info q = .error e →
      collectArgsAux q info.usageSpec.args 0 = .error e := by
  constructor
  · cases hf : f.arg with
    | none => simp [collectFlagsAux, hf, hno]
    | some ph => simp [collectFlagsAux, hf, hno]
  · intro info q e h
    unfold collectArgumentValues at h
    cases harg : collectArgsAux q info.usageSpec.args 0 with
    | error e' => rw [harg] at h; cases h; rfl
    | ok r => rw [harg] at h; cases h

/-- Witness for `flagPrompt_declined_skips`: answering `"No"` skips the flag. -/
theorem flagPrompt_declined_skips_witness :
    collectFlagsAux (fun _ => some "No") [⟨"--verbose", none⟩] 0 =
      collectFlagsAux (fun _ => some "No") [] 1 :=
  (flagPrompt_declined_skips ⟨"--verbose", none⟩ [] (fun _ => some "No") 0
    (by simp)).1

/-- Keys after `pushTask`: unchanged when the key already exists, the new key
appended at the end otherwise. -/
theorem pushTask_map_fst (k : String) (t : MiseTask)
    (gs : List (String × List MiseTask)) :
    (pushTask k t gs).map Prod.fst =
      if k ∈ gs.map Prod.fst then gs.map Prod.fst else gs.map Prod.fst ++ [k] := by
  induction gs with
  | nil => simp [pushTask]
  | cons g rest ih =>
    by_cases h : g.1 = k
    · simp [pushTask, h]
    · have hk : ¬k = g.1 := fun hh => h hh.symm
      simp only [pushTask, if_neg h, List.map_cons, ih, List.mem_cons]
      by_cases hm : k ∈ rest.map Prod.fst
      · simp [hm, hk]
      · simp [hm, hk]

/-- `pushTask` preserves distinctness of the group keys. -/
theorem pushTask_nodup_fst (k : String) (t : MiseTask)
    (gs : List (String × List MiseTask)) (h : (gs.map Prod.fst).Nodup) :
    ((pushTask k t gs).map Prod.fst).Nodup := by
  rw [pushTask_map_fst]
  by_cases hm : k ∈ gs.map Prod.fst
  · simpa [hm] using h
  · simp [hm, List.nodup_append, h]

/-- The tasks stored across all buckets after `pushTask` are the previously
stored tasks plus the pushed one, as a multiset. -/
theorem pushTask_join_perm (k : String) (t : MiseTask)
    (gs : List (String × List MiseTask)) :
    List.Perm ((pushTask k t gs).map Prod.snd).flatten
      ((gs.map Prod.snd).flatten ++ [t]) := by
  induction gs with
  | nil => simp [pushTask]
  | cons g rest ih =>
    by_cases h : g.1 = k
    · simp only [pushTask, if_pos h, List.map_cons, List.flatten_cons]
      rw [List.append_assoc, List.append_assoc]
      exact List.Perm.append_left _ List.perm_append_comm
    · simp only [pushTask, if_neg h, List.map_cons, List.flatten_cons]
      rw [List.append_assoc]
      exact List.Perm.append_left _ ih

/-- `pushTask` with a task's own source key preserves the bucket-key
invariant. -/
theorem pushTask_keyed (k : String) (t : MiseTask) (ht : taskSourceKey t = k) :
    ∀ gs : List (String × List MiseTask), GroupsKeyed gs →
      GroupsKeyed (pushTask k t gs) := by
  intro gs
  induction gs with
  | nil =>
    intro _ g hgmem x hx
    simp only [pushTask, List.mem_singleton] at hgmem
    subst hgmem
    simp only [List.mem_singleton] at hx
    subst hx
    exact ht
  | cons g0 rest ih =>
    intro hg
    have hg0 : ∀ x ∈ g0.2, taskSourceKey x = g0.1 := hg g0 (List.mem_cons_self _ _)
    have hgrest : GroupsKeyed rest := fun g hgm => hg g (List.mem_cons_of_mem _ hgm)
    by_cases h : g0.1 = k
    · intro g hgm x hx
      simp only [pushTask, if_pos h] at hgm
      rcases List.mem_cons.mp hgm with rfl | hgm'
      · rcases List.mem_append.mp hx with hx' | hx'
        · exact hg0 x hx'
        · simp only [List.mem_singleton] at hx'
          subst hx'
          rw [ht]
          exact h.symm
      · exact hgrest g hgm' x hx
    · intro g hgm x hx
      simp only [pushTask, if_neg h] at hgm
      rcases List.mem_cons.mp hgm with rfl | hgm'
      · exact hg0 x hx
      · exact ih hgrest g hgm' x hx

/-- Invariant of the grouping fold, generalized over the accumulator: keys
stay distinct, buckets stay keyed by their tasks' source keys, and the
stored tasks are the accumulator's tasks plus the folded ones. -/
theorem groupFold_invariant (tasks : List MiseTask) :
    ∀ gs : List (String × List MiseTask),
      (gs.map Prod.fst).Nodup → GroupsKeyed gs →
      ((tasks.foldl (fun groups task => pushTask (taskSourceKey task) task groups)
          gs).map Prod.fst).Nodup ∧
      GroupsKeyed (tasks.foldl (fun groups task =>
          pushTask (taskSourceKey task) task groups) gs) ∧
      List.Perm ((tasks.foldl (fun groups task =>
          pushTask (taskSourceKey task) task groups) gs).map Prod.snd).flatten
        ((gs.map Prod.snd).flatten ++ tasks) := by
  induction tasks with
  | nil =>
    intro gs h1 h2
    exact ⟨h1, h2, by simp⟩
  | cons t rest ih =>
    intro gs h1 h2
    simp only [List.foldl_cons]
    obtain ⟨n1, n2, n3⟩ := ih (pushTask (taskSourceKey t) t gs)
      (pushTask_nodup_fst _ _ _ h1) (pushTask_keyed _ _ rfl gs h2)
    refine ⟨n1, n2, n3.trans ?_⟩
    refine (List.Perm.append_right rest (pushTask_join_perm _ _ _)).trans ?_
    rw [List.append_assoc]
    exact List.Perm.refl _

/-- C1: `groupTasksBySource` partitions the fetched task list: the group keys
are pairwise distinct, the concatenation of all groups' task sequences is a
permutation of the input (no task lost, none duplicated beyond input
duplicates), every task sits in a bucket keyed by its own source key
(`"Unknown"` for an empty or absent source), and hence every input task
appears in exactly one group, the one keyed by its source. -/
theorem groupTasksBySource_partitions (tasks : List MiseTask) :
    ((groupTasksBySource tasks).map Prod.fst).Nodup ∧
    List.Perm ((groupTasksBySource tasks).map Prod.snd).flatten tasks ∧
    (∀ g ∈ groupTasksBySource tasks, ∀ x ∈ g.2, taskSourceKey x = g.1) ∧
    (∀ t ∈ tasks, ∃! g, g ∈ groupTasksBySource tasks ∧
      g.1 = taskSourceKey t ∧ t ∈ g.2) := by
  obtain ⟨h1, h2, h3⟩ := groupFold_invariant tasks []
    (by simp) (by intro g hg; simp at hg)
  have h1' : ((groupTasksBySource tasks).map Prod.fst).Nodup := h1
  have h2' : GroupsKeyed (groupTasksBySource tasks) := h2
  have hperm : List.Perm ((groupTasksBySource tasks).map Prod.snd).flatten tasks := by
    simpa [groupTasksBySource] using h3
  refine ⟨h1', hperm, h2', ?_⟩
  intro t ht
  have hmem : t ∈ ((groupTasksBySource tasks).map Prod.snd).flatten :=
    hperm.mem_iff.mpr ht
  rw [List.mem_flatten] at hmem
  obtain ⟨l, hl, htl⟩ := hmem
  rw [List.mem_map] at hl
  obtain ⟨g, hg, rfl⟩ := hl
  refine ⟨g, ⟨hg, (h2' g hg t htl).symm, htl⟩, ?_⟩
  rintro g' ⟨hg', hk', ht'⟩
  refine List.inj_on_of_nodup_map h1' hg' hg ?_
  rw [hk']
  exact h2' g hg t htl

/-- Witness for `groupTasksBySource_partitions` on a concrete task list with
repeated, empty and absent sources. -/
theorem groupTasksBySource_partitions_witness :
    ((groupTasksBySource [⟨"build", some "mise.toml", "b"⟩, ⟨"test", none, "t"⟩,
        ⟨"lint", some "mise.toml", "l"⟩, ⟨"fmt", some "", "f"⟩]).map
      Prod.fst).Nodup :=
  (groupTasksBySource_partitions _).1

/-- A failing tail keeps `collectArgsAux` failing with the same error as
long as the head argument itself does not fail (it is answered with a truthy
value, or it is optional). -/
theorem collectArgsAux_cons_error (p : Nat → Option String) (a : PositionalArg)
    (rest : List PositionalArg) (start : Nat) (e : CollectError)
    (hrec : collectArgsAux p rest (start + 1) = .error e)
    (hok : strOptTruthy (p start) = true ∨ a.required = false) :
    collectArgsAux p (a :: rest) start = .error e := by
  rcases hv : p start with _ | v
  · have hr : a.required = false := by
      rcases hok with h | h
      · rw [hv] at h; simp [strOptTruthy] at h
      · exact h
    simp [collectArgsAux, hv, hr, hrec]
  · by_cases hve : v = ""
    · have hr : a.required = false := by
        rcases hok with h | h
        · rw [hv] at h; simp [strOptTruthy, hve] at h
        · exact h
      simp [collectArgsAux, hv, hve, hr, hrec]
    · simp [collectArgsAux, hv, hve, hrec]

/-- The positional loop fails with the name of the first required argument
whose prompt was answered with an empty or cancelled value. -/
theorem collectArgsAux_firstRequired (p : Nat → Option String) :
    ∀ (args : List PositionalArg) (start j : Nat) (hj : j < args.length),
      (args.get ⟨j, hj⟩).required = true →
      strOptTruthy (p (start + j)) = false →
      (∀ i (hi : i < j), strOptTruthy (p (start + i)) = true ∨
        (args.get ⟨i, Nat.lt_trans hi hj⟩).required = false) →
      collectArgsAux p args start =
        .error (.missingRequired (args.get ⟨j, hj⟩).name) := by
  intro args
  induction args with
  | nil =>
    intro start j hj
    exact absurd hj (Nat.not_lt_zero j)
  | cons a rest ih =>
    intro start j hj hreq hfalsy hfirst
    cases j with
    | zero =>
      rw [Nat.add_zero] at hfalsy
      simp only [List.get] at hreq ⊢
      rcases hv : p start with _ | v
      · simp [collectArgsAux, hv, hreq]
      · rw [hv] at hfalsy
        have hve : v = "" := by simpa [strOptTruthy] using hfalsy
        simp [collectArgsAux, hv, hve, hreq]
    | succ j' =>
      have hj' : j' < rest.length := by
        simpa using Nat.lt_of_succ_lt_succ hj
      have hreq' : (rest.get ⟨j', hj'⟩).required = true := by simpa using hreq
      have hfalsy' : strOptTruthy (p (start + 1 + j')) = false := by
        have heq : start + 1 + j' = start + (j' + 1) := by omega
        rw [heq]
        exact hfalsy
      have hfirst' : ∀ i (hi : i < j'),
          strOptTruthy (p (start + 1 + i)) = true ∨
          (rest.get ⟨i, Nat.lt_trans hi hj'⟩).required = false := by
        intro i hi
        have h := hfirst (i + 1) (Nat.succ_lt_succ hi)
        have heq : start + (i + 1) = start + 1 + i := by omega
        rw [heq] at h
        simpa using h
      have hrec := ih (start + 1) j' hj' hreq' hfalsy' hfirst'
      have hok : strOptTruthy (p start) = true ∨ a.required = false := by
        have h := hfirst 0 (Nat.succ_pos j')
        rw [Nat.add_zero] at h
        simpa using h
      have hname : ((a :: rest).get ⟨j' + 1, hj⟩).name =
          (rest.get ⟨j', hj'⟩).name := by simp
      rw [hname]
      exact collectArgsAux_cons_error p a rest start _ hrec hok

/-- C3: when some required positional argument's prompt is answered with an
empty or cancelled value (and no earlier positional already failed), the
collection fails with `missingRequired` carrying that argument's name, and
neither `runTask` nor `watchTask` ever invokes the backend run/watch
operation for that attempt — in particular no previously collected tokens
reach the backend; `runTask` converts the failure into a user-facing
message. -/
theorem requiredArg_failFast (info : MiseTaskInfo) (p : Nat → Option String)
    (j : Nat) (hj : j < info.usageSpec.args.length)
    (hreq : (info.usageSpec.args.get ⟨j, hj⟩).required = true)
    (hfalsy : strOptTruthy (p j) = false)
    (hfirst : ∀ i (hi : i < j), strOptTruthy (p i) = true ∨
      (info.usageSpec.args.get ⟨i, Nat.lt_trans hi hj⟩).required = false) :
    collectArgumentValues info p =
      .error (.missingRequired (info.usageSpec.args.get ⟨j, hj⟩).name) ∧
    ∀ (gti : String → Option MiseTaskInfo) (b : List String → Except String Unit)
      (taskName : String), gti taskName = some info →
      (runTask gti p b taskName).backendCall = none ∧
      (runTask gti p b taskName).errorShown =
        some (.failedToRunTask taskName (.collectionFailed
          (.missingRequired (info.usageSpec.args.get ⟨j, hj⟩).name))) ∧
      ∀ tr wr, (watchTask tr wr gti p b taskName).backendCall = none := by
  have hcoll : collectArgsAux p info.usageSpec.args 0 =
      .error (.missingRequired (info.usageSpec.args.get ⟨j, hj⟩).name) := by
    refine collectArgsAux_firstRequired p info.usageSpec.args 0 j hj hreq
      (by simpa using hfalsy) ?_
    intro i hi
    simpa using hfirst i hi
  have hcav : collectArgumentValues info p =
      .error (.missingRequired (info.usageSpec.args.get ⟨j, hj⟩).name) := by
    unfold collectArgumentValues
    rw [hcoll]
  have hlen : info.usageSpec.args.length > 0 := Nat.lt_of_le_of_lt (Nat.zero_le j) hj
  refine ⟨hcav, ?_⟩
  intro gti b taskName hgti
  have hbody : runOrWatchBody gti p b taskName =
      { collectorInvoked := true, backendCall := none
        errorShown := some (.failedToRunTask taskName (.collectionFailed
          (.missingRequired (info.usageSpec.args.get ⟨j, hj⟩).name))) } := by
    unfold runOrWatchBody
    simp only [hgti]
    rw [if_pos (Or.inl hlen)]
    simp [hcav]
  refine ⟨?_, ?_, ?_⟩
  · show (runOrWatchBody gti p b taskName).backendCall = none
    rw [hbody]
  · show (runOrWatchBody gti p b taskName).errorShown = _
    rw [hbody]
  · intro tr wr
    unfold watchTask
    by_cases hp : watchPrereqMissing tr wr
    · rw [if_pos hp]
    · rw [if_neg hp, hbody]

/-- Witness for `requiredArg_failFast`: a lone required positional argument
whose prompt is dismissed fails the collection with its name. -/
theorem requiredArg_failFast_witness :
    collectArgumentValues ⟨"t", ⟨[⟨"file", true⟩], []⟩⟩ (fun _ => none) =
      .error (.missingRequired "file") :=
  (requiredArg_failFast ⟨"t", ⟨[⟨"file", true⟩], []⟩⟩ (fun _ => none) 0
    (by simp) rfl rfl (fun i hi => absurd hi (Nat.not_lt_zero i))).1

end MiseVscode
